import Mathlib

/-!
Verification of `src/overlaybd/utility.h` (overlaybd utility primitives).

We shallowly embed the header's pure primitives:
* `OwnedPtr_Base` / `OwnedPtr` — pointer-with-ownership-bit packing
  (the pointer word is modelled as a `Nat` below `2^64`);
* `Defer` / `make_defer` — scoped-cleanup handles, together with the C++
  destruction-order semantics of a scope holding several of them;
* `is_power_of_2`, `alingn_down`, `alingn_up` — 64-bit bit tricks,
  modelled with `Nat` and explicit reduction mod `2^64` where the C code
  wraps;
* `xrange` / `xrange_t` — the lazy integer range, with the range-for loop
  of C++ modelled as a fuel-indexed loop returning `Option (List Int)`
  (`none` = the fuel ran out before the terminal comparison held).
-/

/-- `2^64`, the modulus of the C `uint64_t` arithmetic used in the header. -/
def U64 : Nat := 2 ^ 64

/-- Bitwise NOT on a 64-bit word `y < 2^64` (C `~y` on `uint64_t`):
complementing against the all-ones word. -/
def complement64 (y : Nat) : Nat := (U64 - 1) - y

/-! ## OwnedPtr (`utility.h` lines 184–214)

```cpp
class OwnedPtr_Base {
protected:
    void *m_ptr;
    OwnedPtr_Base(void *ptr, bool ownership) {
        m_ptr = (void *)((uint64_t)ptr & (uint64_t)ownership);
    }
    const static uint64_t mask = 1;
    void *get() { return (void *)((uint64_t)m_ptr & ~mask); }
    bool owned() { return (uint64_t)m_ptr & mask; }
};
```
The pointer word is a `Nat` (the numeric value of the `void*`). -/

/-- The packed word stored by `OwnedPtr_Base`. -/
structure OwnedPtr_Base where
  m_ptr : Nat

/-- `const static uint64_t mask = 1`. -/
def OwnedPtr_Base.mask : Nat := 1

/-- The constructor `OwnedPtr_Base(void *ptr, bool ownership)`:
`m_ptr = (void *)((uint64_t)ptr & (uint64_t)ownership)` — note the source
uses bitwise AND (`&`) here, not OR. `(uint64_t)ownership` is `1` or `0`. -/
def OwnedPtr_Base.construct (ptr : Nat) (ownership : Bool) : OwnedPtr_Base :=
  ⟨Nat.land ptr (if ownership then 1 else 0)⟩

/-- `void *get() { return (void *)((uint64_t)m_ptr & ~mask); }` -/
def OwnedPtr_Base.get (p : OwnedPtr_Base) : Nat :=
  Nat.land p.m_ptr (complement64 OwnedPtr_Base.mask)

/-- `bool owned() { return (uint64_t)m_ptr & mask; }` (nonzero ⇒ `true`). -/
def OwnedPtr_Base.owned (p : OwnedPtr_Base) : Bool :=
  Nat.land p.m_ptr OwnedPtr_Base.mask != 0

/-- `OwnedPtr<T>::~OwnedPtr() { if (owned()) delete (T *)get(); }` —
modelled as the list of addresses the destructor passes to `delete`. -/
def OwnedPtr_Base.destructDeletes (p : OwnedPtr_Base) : List Nat :=
  if p.owned then [p.get] else []

/-! ## Defer (`utility.h` lines 46–66)

```cpp
template <typename T>
class Defer {
public:
    Defer(T fn) : m_func(fn) {}
    ~Defer() { m_func(); }
    void operator=(const Defer<T> &) = delete;
    operator bool() { return true; }
private:
    T m_func;
};
template <typename T> Defer<T> make_defer(T func) { return Defer<T>(func); }
```
The callable is modelled abstractly as a value of type `A` (an action
identifier); "invoking" an action is recorded as an event in a trace. -/

/-- A `Defer<T>` handle holding callable `m_func`. -/
structure Defer (A : Type) where
  m_func : A

/-- `make_defer(func)` — the factory returning `Defer<T>(func)`. -/
def make_defer {A : Type} (func : A) : Defer A :=
  Defer.mk func

/-- `~Defer() { m_func(); }` — destruction of one handle invokes the stored
callable exactly once; modelled as the event trace of the destructor. -/
def Defer.destructEvents {A : Type} (d : Defer A) : List A :=
  [d.m_func]

/-- The implicit copy constructor `Defer(const Defer&)` copies `m_func`
without invoking it: its event trace is empty.  (Copy *assignment* is
deleted in the source, so no model of it exists.) -/
def Defer.copyEvents {A : Type} (_ : Defer A) : List A :=
  []

/-- `operator bool() { return true; }`. -/
def Defer.toBool {A : Type} (_ : Defer A) : Bool :=
  true

/-- C++ scope-exit semantics for a scope whose `Defer` handles were
constructed in the order given by the list: automatic objects are destroyed
in reverse order of construction, the destructor of each emitting
`Defer.destructEvents`.  The result is the concatenated trace of invoked
actions. -/
def scopeExitTrace {A : Type} : List (Defer A) → List A
  | [] => []
  | d :: rest => scopeExitTrace rest ++ d.destructEvents

/-! ## is_power_of_2 (`utility.h` lines 98–100)

```cpp
inline bool is_power_of_2(uint64_t x) { return __builtin_popcountl(x) == 1; }
``` -/

/-- Population count (`__builtin_popcountl`): the number of set bits. -/
def popcountl : Nat → Nat
  | 0 => 0
  | n + 1 => (n + 1) % 2 + popcountl ((n + 1) / 2)
decreasing_by exact Nat.div_lt_self (Nat.succ_pos n) one_lt_two

/-- `is_power_of_2(x)`: popcount equals one. -/
def is_power_of_2 (x : Nat) : Bool :=
  popcountl x == 1

/-! ## Alignment (`utility.h` lines 159–165)

```cpp
inline uint64_t alingn_down(uint64_t x, uint64_t alignment) {
    return x & ~(alignment - 1);
}
inline uint64_t alingn_up(uint64_t x, uint64_t alignment) {
    return alingn_down(x + alignment - 1, alignment);
}
```
`alignment - 1` and `x + alignment - 1` are `uint64_t` arithmetic, hence
taken mod `2^64` (adding `U64 - 1` instead of subtracting 1 avoids `Nat`
truncation at zero and agrees with the C wraparound). -/

/-- `alingn_down(x, alignment) = x & ~(alignment - 1)` in `uint64_t`. -/
def alingn_down (x alignment : Nat) : Nat :=
  Nat.land x (complement64 ((alignment + (U64 - 1)) % U64))

/-- `alingn_up(x, alignment) = alingn_down(x + alignment - 1, alignment)`
in `uint64_t`. -/
def alingn_up (x alignment : Nat) : Nat :=
  alingn_down ((x + alignment + (U64 - 1)) % U64) alignment

/-! ## xrange (`utility.h` lines 102–157)

```cpp
template <typename INT>
struct xrange_t {
    const INT _begin, _end;
    const int64_t _step;
    struct iterator {
        const xrange_t *_xrange;
        INT i;
        iterator &operator++() { i += _xrange->_step; return *this; }
        INT operator*() { return i; }
        bool operator==(const iterator &rhs) const {
            return _xrange == rhs._xrange &&
                   (i == rhs.i || (i >= _xrange->_end && rhs.i >= _xrange->_end));
        }
        bool operator!=(const iterator &rhs) const { return !(*this == rhs); }
    };
    iterator begin() const { return iterator{this, _begin}; }
    iterator end() const { return iterator{this, _end}; }
};
template <typename T, ENABLE_IF(std::is_signed<T>::value)>
xrange_t<int64_t> xrange(T begin, T end, int64_t step = 1) { ... }
template <typename T, ENABLE_IF(std::is_signed<T>::value)>
xrange_t<int64_t> xrange(T end) { return xrange<T>(0, end); }
```
We embed the signed (`int64_t`) instantiation with `Int` (the claims use
signed literals only and stay far from the 64-bit boundaries, where signed
overflow would in any case be undefined behaviour in the source). -/

/-- The range triple `xrange_t<int64_t>`. -/
structure xrange_t where
  xbegin : Int
  xend : Int
  xstep : Int

/-- `xrange(begin, end, step)` (signed overload). -/
def xrange (b e step : Int) : xrange_t :=
  ⟨b, e, step⟩

/-- `xrange(end)` (signed overload): `return xrange<T>(0, end);`
(the defaulted `step` argument is 1). -/
def xrange1 (e : Int) : xrange_t :=
  xrange 0 e 1

/-- `iterator::operator==` between two positions `i` and `j` of the same
range: `i == rhs.i || (i >= _xrange->_end && rhs.i >= _xrange->_end)`. -/
def xrange_t.iterEq (r : xrange_t) (i j : Int) : Bool :=
  i == j || (decide (i ≥ r.xend) && decide (j ≥ r.xend))

/-- The C++ range-for loop `for (auto v : r) { ... }`: starting the cursor
at `begin()`, while the cursor compares unequal to `end()` (whose `i` field
is `_end`), yield `*it` and advance by `_step`.  Fuel-indexed; `none` means
the fuel was exhausted before the terminal comparison held, `some l` means
the loop exited normally having yielded exactly `l`. -/
def xrangeLoop (r : xrange_t) : Nat → Int → Option (List Int)
  | 0, _ => none
  | fuel + 1, i =>
    if r.iterEq i r.xend then
      some []
    else
      (xrangeLoop r fuel (i + r.xstep)).map (fun l => i :: l)

/-- The full traversal of range `r` with the given fuel. -/
def xrangeList (r : xrange_t) (fuel : Nat) : Option (List Int) :=
  xrangeLoop r fuel r.xbegin

/-! ## Helper lemmas -/

/-- Unfolding `popcountl` at a nonzero argument. -/
theorem popcountl_pos_eq (x : Nat) (hx : x ≠ 0) :
    popcountl x = x % 2 + popcountl (x / 2) := by
  match x, hx with
  | n + 1, _ => simp [popcountl]

/-- `popcountl` vanishes only at zero. -/
theorem popcountl_eq_zero (x : Nat) : popcountl x = 0 ↔ x = 0 := by
  induction x using Nat.strong_induction_on with
  | _ n ih =>
    match n with
    | 0 => simp [popcountl]
    | m + 1 =>
      rw [popcountl_pos_eq (m + 1) (Nat.succ_ne_zero m)]
      constructor
      · intro h
        have h2 : popcountl ((m + 1) / 2) = 0 := by omega
        have h3 : (m + 1) / 2 = 0 := (ih ((m + 1) / 2) (by omega)).mp h2
        omega
      · intro h
        omega

/-- A power of two has a single set bit. -/
theorem popcountl_two_pow (k : Nat) : popcountl (2 ^ k) = 1 := by
  induction k with
  | zero =>
    rw [pow_zero, popcountl_pos_eq 1 one_ne_zero]
    simp [popcountl]
  | succ m ih =>
    have h1 : (2 : Nat) ^ (m + 1) ≠ 0 := by positivity
    rw [popcountl_pos_eq _ h1]
    have h2 : (2 : Nat) ^ (m + 1) % 2 = 0 := by
      simp [pow_succ, Nat.mul_mod_left]
    have h3 : (2 : Nat) ^ (m + 1) / 2 = 2 ^ m := by
      rw [pow_succ, Nat.mul_div_cancel _ (by norm_num)]
    rw [h2, h3, ih]

/-- `popcountl x = 1` exactly on the powers of two. -/
theorem popcountl_eq_one (x : Nat) : popcountl x = 1 ↔ ∃ k, x = 2 ^ k := by
  constructor
  · induction x using Nat.strong_induction_on with
    | _ n ih =>
      intro h
      match n, h, ih with
      | 0, h, _ => simp [popcountl] at h
      | m + 1, h, ih =>
        rw [popcountl_pos_eq (m + 1) (Nat.succ_ne_zero m)] at h
        rcases Nat.mod_two_eq_zero_or_one (m + 1) with h2 | h2
        · have h4 : popcountl ((m + 1) / 2) = 1 := by omega
          obtain ⟨k, hk⟩ := ih ((m + 1) / 2) (by omega) h4
          refine ⟨k + 1, ?_⟩
          have hp : (2 : Nat) ^ (k + 1) = 2 ^ k * 2 := pow_succ 2 k
          omega
        · have h4 : popcountl ((m + 1) / 2) = 0 := by omega
          have h5 : (m + 1) / 2 = 0 := (popcountl_eq_zero _).mp h4
          have h6 : m + 1 = 1 := by omega
          rw [h6]
          exact ⟨0, rfl⟩
  · rintro ⟨k, rfl⟩
    exact popcountl_two_pow k

/-- Masking a 64-bit value with `2^64 - 2^k` (all ones from bit `k` up)
keeps exactly the bits at positions `k` and above. -/
theorem land_ones_above (x k : Nat) (hx : x < U64) (hk : k ≤ 64) :
    Nat.land x (U64 - 2 ^ k) = 2 ^ k * (x / 2 ^ k) := by
  have hmask : U64 - 2 ^ k = (2 ^ (64 - k) - 1) <<< k := by
    rw [Nat.shiftLeft_eq, Nat.sub_mul, one_mul, ← pow_add, Nat.sub_add_cancel hk]
    rfl
  have hr : 2 ^ k * (x / 2 ^ k) = (x >>> k) <<< k := by
    rw [Nat.shiftRight_eq_div_pow, Nat.shiftLeft_eq, Nat.mul_comm]
  rw [hmask, hr]
  have hland : Nat.land x ((2 ^ (64 - k) - 1) <<< k) = x &&& ((2 ^ (64 - k) - 1) <<< k) := rfl
  rw [hland]
  apply Nat.eq_of_testBit_eq
  intro i
  rw [Nat.testBit_land, Nat.testBit_shiftLeft, Nat.testBit_shiftLeft,
    Nat.testBit_two_pow_sub_one, Nat.testBit_shiftRight]
  by_cases hik : k ≤ i
  · have hki : k + (i - k) = i := by omega
    rw [hki]
    by_cases hi64 : i < 64
    · have hs : i - k < 64 - k := by omega
      simp [ge_iff_le, hik, hs, Bool.and_comm]
    · have hxlt : x < 2 ^ i := by
        have : U64 ≤ 2 ^ i := Nat.pow_le_pow_right (by norm_num) (by omega)
        omega
      have hxi : x.testBit i = false := Nat.testBit_eq_false_of_lt hxlt
      have hs : ¬(i - k < 64 - k) := by omega
      simp [hxi, hs]
  · simp [ge_iff_le, hik]

/-- `alingn_down` at a power-of-two alignment is truncating division then
re-multiplication. -/
theorem alingn_down_pow (x k : Nat) (hx : x < U64) (hk : k < 64) :
    alingn_down x (2 ^ k) = 2 ^ k * (x / 2 ^ k) := by
  have hU : U64 = 18446744073709551616 := by norm_num [U64]
  have h1 : 1 ≤ (2 : Nat) ^ k := Nat.one_le_two_pow
  have h2 : (2 : Nat) ^ k < U64 := by
    have h3 : (2 : Nat) ^ k < 2 ^ 64 := Nat.pow_lt_pow_right one_lt_two hk
    exact lt_of_lt_of_le h3 (le_of_eq (by norm_num [U64]))
  rw [hU] at h2
  have hmod : (2 ^ k + (U64 - 1)) % U64 = 2 ^ k - 1 := by
    rw [hU]
    omega
  have hcomp : complement64 (2 ^ k - 1) = U64 - 2 ^ k := by
    unfold complement64
    rw [hU]
    omega
  unfold alingn_down
  rw [hmod, hcomp]
  exact land_ones_above x k hx (le_of_lt hk)

/-! ## Claim theorems -/

/-- C1 (code evaluation at the failing input): constructing an OwnedPtr
from the even address 2 with ownership=true does NOT round-trip — the
constructor packs with `&` where the accessors' masking scheme requires
`|`, so the stored word is `2 & 1 = 0`: `get` returns 0 (not 2) and
`owned` returns false (not true). -/
theorem C1_ownedptr_roundtrip_fails :
    (OwnedPtr_Base.construct 2 true).get = 0
    ∧ (OwnedPtr_Base.construct 2 true).owned = false := by
  decide

/-- C2 (code evaluation at the failing input): the destructor of an
OwnedPtr constructed from the even address 2 with ownership=true deletes
nothing (the constructor bug makes `owned()` false), violating "releases
iff the flag was set"; with ownership=false it also deletes nothing
(that direction of the claim happens to hold). -/
theorem C2_ownedptr_destructor_never_deletes :
    (OwnedPtr_Base.construct 2 true).destructDeletes = []
    ∧ (OwnedPtr_Base.construct 2 false).destructDeletes = [] := by
  decide

/-- C3: destroying a scope that registered `Defer` handles in order `ds`
fires the registered actions in strictly reverse registration order (the
exit trace is exactly the reverse of the registration list), hence each
registration fires exactly once (per-action counts agree with the
registrations), and copying a handle invokes nothing (reassignment is
deleted in the source, so it cannot occur at all). -/
theorem C3_defer_stack_discipline {A : Type} [DecidableEq A] (ds : List (Defer A)) :
    scopeExitTrace ds = (ds.map Defer.m_func).reverse
    ∧ (∀ a : A, (scopeExitTrace ds).count a = (ds.map Defer.m_func).count a)
    ∧ ∀ d : Defer A, d.copyEvents = [] := by
  have key : scopeExitTrace ds = (ds.map Defer.m_func).reverse := by
    induction ds with
    | nil => rfl
    | cons d rest ih =>
      simp [scopeExitTrace, Defer.destructEvents, ih]
  refine ⟨key, ?_, fun d => rfl⟩
  intro a
  rw [key, List.count_reverse]

/-- C4 (code evaluation at the failing input): the descending range
`xrange(8, 2, -2)` yields the EMPTY sequence — at the very first
comparison the cursor 8 already satisfies `i >= _end` (= 2), so
`begin() == end()` holds and the loop body never runs; the claimed
descending traversal 8, 6, 4 does not occur. -/
theorem C4_xrange_descending_is_empty :
    xrangeList (xrange 8 2 (-2)) 100 = some [] := by
  rfl

/-- C5: the overshooting ascending range `xrange(3, 10, 4)` terminates,
yielding exactly 3, 7 (`some _` means the loop exited through the
terminal comparison, not by exhausting fuel); and the terminal comparison
against `end()` holds exactly when the cursor is at or past `_end`, not
only on exact equality. -/
theorem C5_xrange_overshoot_terminates :
    xrangeList (xrange 3 10 4) 100 = some [3, 7]
    ∧ ∀ (r : xrange_t) (i : Int), (r.iterEq i r.xend = true ↔ i ≥ r.xend) := by
  constructor
  · rfl
  · intro r i
    simp only [xrange_t.iterEq, Bool.or_eq_true, beq_iff_eq, Bool.and_eq_true,
      decide_eq_true_eq, ge_iff_le, le_refl, and_true]
    constructor
    · rintro (rfl | h)
      · exact le_refl _
      · exact h
    · intro h
      right
      exact h

/-- C6: ascending ranges with positive step enumerate begin, begin+step,
... up to but excluding end: `xrange(0, 10, 1)` yields 0..9 (10
elements), `xrange(2, 8, 2)` yields 2, 4, 6, and the one-argument form
is definitionally `xrange(0, end)` with step 1, hence yields the
identical sequence. -/
theorem C6_xrange_ascending :
    xrangeList (xrange 0 10 1) 100 = some [0, 1, 2, 3, 4, 5, 6, 7, 8, 9]
    ∧ xrangeList (xrange 2 8 2) 100 = some [2, 4, 6]
    ∧ ∀ e : Int, xrange1 e = xrange 0 e 1 := by
  refine ⟨rfl, rfl, fun e => rfl⟩

/-- C7: for every 64-bit `x` and power-of-two alignment `p = 2^k`,
`alingn_down x p ≤ x < alingn_down x p + p`; and concretely
`alingn_up 5 8 = 8`, `alingn_down 5 8 = 0`, `alingn_up 8 8 = 8`. -/
theorem C7_alingn_bounds (x p : Nat) (hx : x < U64) (hp : ∃ k, k < 64 ∧ p = 2 ^ k) :
    (alingn_down x p ≤ x ∧ x < alingn_down x p + p)
    ∧ alingn_up 5 8 = 8 ∧ alingn_down 5 8 = 0 ∧ alingn_up 8 8 = 8 := by
  obtain ⟨k, hk, rfl⟩ := hp
  rw [alingn_down_pow x k hx hk]
  refine ⟨⟨?_, ?_⟩, by decide, by decide, by decide⟩
  · rw [Nat.mul_comm]
    exact Nat.div_mul_le_self x (2 ^ k)
  · have hdm := Nat.div_add_mod x (2 ^ k)
    have hlt : x % 2 ^ k < 2 ^ k := Nat.mod_lt x (by positivity)
    omega

/-- Witness for C7 at x = 5, p = 8 = 2^3. -/
theorem C7_alingn_bounds_witness :
    (alingn_down 5 8 ≤ 5 ∧ 5 < alingn_down 5 8 + 8)
    ∧ alingn_up 5 8 = 8 ∧ alingn_down 5 8 = 0 ∧ alingn_up 8 8 = 8 :=
  C7_alingn_bounds 5 8 (by norm_num [U64]) ⟨3, by norm_num, by norm_num⟩

/-- C8: `is_power_of_2 x` is true exactly when the 64-bit value `x` is a
power of two (exactly one set bit, `x ∈ {1, 2, 4, 8, ...}`); in
particular it is false at 0 and at any value with two or more set bits. -/
theorem C8_is_power_of_2_iff (x : Nat) (hx : x < U64) :
    is_power_of_2 x = true ↔ ∃ k, x = 2 ^ k := by
  unfold is_power_of_2
  rw [beq_iff_eq]
  exact popcountl_eq_one x

/-- Witness for C8 at x = 4 = 2^2. -/
theorem C8_is_power_of_2_iff_witness : is_power_of_2 4 = true :=
  (C8_is_power_of_2_iff 4 (by norm_num [U64])).mpr ⟨2, by norm_num⟩

/-- C9: every handle produced by `make_defer` converts to `true` in a
boolean context — `operator bool` returns `true` unconditionally,
whatever the stored action. -/
theorem C9_make_defer_truthy {A : Type} (f : A) : (make_defer f).toBool = true :=
  rfl

/-- C10: whatever pointer value (aligned or not, any ownership flag) an
OwnedPtr is constructed from, the address exposed by `get` (and hence by
`operator->` and the conversion operator, which both return `(T *)get()`)
has its low bit cleared — it is always even. -/
theorem C10_ownedptr_get_even (ptr : Nat) (own : Bool) :
    (OwnedPtr_Base.construct ptr own).get % 2 = 0 := by
  have h : ((OwnedPtr_Base.construct ptr own).get).testBit 0 = false := by
    unfold OwnedPtr_Base.get
    have hland : Nat.land (OwnedPtr_Base.construct ptr own).m_ptr (complement64 OwnedPtr_Base.mask)
        = (OwnedPtr_Base.construct ptr own).m_ptr &&& complement64 OwnedPtr_Base.mask := rfl
    rw [hland, Nat.testBit_land]
    have hc : (complement64 OwnedPtr_Base.mask).testBit 0 = false := by decide
    rw [hc, Bool.and_false]
  rw [Nat.testBit_zero] at h
  simp only [decide_eq_false_iff_not] at h
  omega
